import Mathlib

/-
  Verification of the coreason-catalog federation broker against its
  natural-language specification.

  Shallow embedding of:
    - models.py                (SourceManifest, SourceResult, CatalogResponse)
    - services/policy_engine.py (check_access, evaluate_policy)
    - services/provenance.py    (generate_provenance)
    - services/broker.py        (FederationBroker.dispatch_query)
    - services/sse_dispatcher.py (SSE line-parsing loop)

  Python machine-level conventions used throughout:
    - dict values are modelled by the PyVal inductive; the Python identity
      test (value is True) is modelled as equality with PyVal.bool true,
      which is faithful because in CPython only the boolean singleton True
      satisfies it (1 is True and "true" is True are both False).
    - fallible calls are modelled with Except; a raised exception is an
      Except.error value.
-/

namespace CoreasonCatalog

/-- Sensitivity classification, from models.DataSensitivity. -/
inductive DataSensitivity
  | PUBLIC
  | INTERNAL
  | PII
  | GxP_LOCKED
  deriving DecidableEq, Repr

/-- A Python runtime value, as far as the claims need one: claim values in a
UserContext.claims mapping and opaque data payloads. Distinct constructors
model distinct Python types, so the CPython identity test (v is True) is
equality with PyVal.bool true. -/
inductive PyVal
  | none
  | bool (b : Bool)
  | int (n : Int)
  | str (s : String)
  deriving DecidableEq, Repr

/-- The manifest of a registered source, from models.SourceManifest.
The acls field is dereferenced by PolicyEngine.check_access and constructed
throughout the test suite; the models.py snapshot omits its declaration, so
its presence here is modelled from the spec (section 3: acls, a set of group
identifiers; empty means no group grants access). -/
structure SourceManifest where
  urn : String
  name : String
  description : String
  endpoint_url : String
  geo_location : String
  sensitivity : DataSensitivity
  owner_group : String
  access_policy : String
  acls : List String
  deriving DecidableEq, Repr

/-- The authenticated caller, from the external coreason_identity package.
Modelled from the spec: section 3 gives attributes user_id, email, groups
(set of group identifiers) and claims (mapping of named claims). -/
structure UserContext where
  user_id : String
  email : String
  groups : List String
  claims : List (String × PyVal)
  deriving DecidableEq, Repr

/-- Python dict.get with default None, over an association list. -/
def dictGet (m : List (String × PyVal)) (k : String) : Option PyVal :=
  (m.find? (fun kv => kv.1 == k)).map (fun kv => kv.2)

/-- PolicyEngine.check_access: service accounts (claim is_service_account
identical to the boolean True) bypass the ACL check; otherwise access holds
iff the manifest acls and the caller groups intersect. -/
def check_access (asset : SourceManifest) (user_context : UserContext) : Bool :=
  if dictGet user_context.claims "is_service_account" = some (PyVal.bool true) then
    true
  else
    asset.acls.any (fun g => user_context.groups.contains g)

/-- A JSON value, as produced by the provenance service and consumed by
json.dumps. Objects keep insertion order; sorting happens at serialization
time (sort_keys=True). -/
inductive Json where
  | null
  | jbool (b : Bool)
  | str (s : String)
  | arr (xs : List Json)
  | obj (kvs : List (String × Json))
  deriving Repr

/-- Render one already-serialized object member as key: value. -/
def renderPair (q : String × String) : String :=
  "\x22" ++ q.1 ++ "\x22: " ++ q.2

/-- Python json.dumps with sort_keys=True and the default separators: object
members are sorted by key (code-point order on the ASCII fragment the
documents use) at every nesting level; arrays keep their order. -/
def dumps : Json → String
  | .null => "null"
  | .jbool true => "true"
  | .jbool false => "false"
  | .str s => "\x22" ++ s ++ "\x22"
  | .arr xs => "[" ++ String.intercalate ", " (xs.attach.map (fun p => dumps p.1)) ++ "]"
  | .obj kvs => "\x7b" ++ String.intercalate ", "
      ((List.insertionSort (fun a b => a.1 ≤ b.1)
          (kvs.attach.map (fun p => (p.1.1, dumps p.1.2)))).map renderPair) ++ "\x7d"
  termination_by j => sizeOf j
  decreasing_by
  · have := List.sizeOf_lt_of_mem p.2
    simp only [Json.arr.sizeOf_spec]
    omega
  · obtain ⟨⟨a, b⟩, hp⟩ := p
    have h1 := List.sizeOf_lt_of_mem hp
    simp only [Json.obj.sizeOf_spec, Prod.mk.sizeOf_spec] at h1 ⊢
    omega

/-- Status literal of models.SourceResult. -/
inductive Status
  | SUCCESS
  | ERROR
  | BLOCKED_BY_POLICY
  | PARTIAL_CONTENT
  deriving DecidableEq, Repr

/-- One source's outcome, from models.SourceResult. The opaque data payload
is modelled as a JSON value; latency is the measured wall-clock duration in
milliseconds. -/
structure SourceResult where
  source_urn : String
  status : Status
  data : Json
  latency_ms : ℚ

/-- The aggregated response, from models.CatalogResponse as declared in the
models.py snapshot: query_id, aggregated_results and provenance_signature
are its only fields (it carries no partial_content field). -/
structure CatalogResponse where
  query_id : String
  aggregated_results : List SourceResult
  provenance_signature : String

/-- The URNs of the SUCCESS results, in result order, as collected by the
used_sources loop of ProvenanceService.generate_provenance. -/
def usedSources (results : List SourceResult) : List String :=
  (results.filter (fun r => decide (r.status = Status.SUCCESS))).map
    (fun r => r.source_urn)

/-- The members of the Activity node, in the insertion order of
generate_provenance: id, type, end time, and prov:used only when at least
one result succeeded. -/
def activityFields (query_id : String) (results : List SourceResult)
    (timestamp : String) : List (String × Json) :=
  let base : List (String × Json) :=
    [("@id", Json.str ("urn:coreason:activity:" ++ query_id)),
     ("@type", Json.str "prov:Activity"),
     ("prov:endedAtTime", Json.obj
        [("@value", Json.str timestamp), ("@type", Json.str "xsd:dateTime")])]
  if usedSources results = [] then base
  else base ++ [("prov:used", Json.arr ((usedSources results).map Json.str))]

/-- The members of the Entity node of generate_provenance. -/
def entityFields (query_id : String) : List (String × Json) :=
  [("@id", Json.str ("urn:coreason:entity:response:" ++ query_id)),
   ("@type", Json.str "prov:Entity"),
   ("prov:wasGeneratedBy", Json.str ("urn:coreason:activity:" ++ query_id)),
   ("coreason:queryId", Json.str query_id)]

/-- The assembled JSON-LD document of generate_provenance, before
serialization: the fixed three-prefix context and the two-node graph. -/
def provenanceDoc (query_id : String) (results : List SourceResult)
    (timestamp : String) : Json :=
  Json.obj
    [("@context", Json.obj
        [("prov", Json.str "http://www.w3.org/ns/prov#"),
         ("coreason", Json.str "https://coreason.ai/provenance#"),
         ("xsd", Json.str "http://www.w3.org/2001/XMLSchema#")]),
     ("@graph", Json.arr
        [Json.obj (activityFields query_id results timestamp),
         Json.obj (entityFields query_id)])]

/-- ProvenanceService.generate_provenance: assemble the document and
serialize it with sorted keys. The UTC timestamp the code reads from the
clock is passed explicitly. -/
def generate_provenance (query_id : String) (results : List SourceResult)
    (timestamp : String) : String :=
  dumps (provenanceDoc query_id results timestamp)

/-- The outcomes of the collaborator calls one FederationBroker.dispatch_query
run makes: the embedder, the vector search, the policy gate per candidate,
the dispatcher per allowed source, the measured per-source latency, and the
clock value the provenance service reads. A raised Python exception is an
Except.error carrying its message string. -/
structure BrokerEnv where
  embed : Except String (List ℚ)
  search : Except String (List SourceManifest)
  policy : SourceManifest → Except String Bool
  dispatchTo : SourceManifest → Except String Json
  latency : SourceManifest → ℚ
  timestamp : String

/-- The governance loop of dispatch_query: a candidate is kept only when
evaluate_policy returns True; a False result or a raised exception drops it
(fail closed, continue). No other gate is consulted. -/
def governanceFilter (env : BrokerEnv) (candidates : List SourceManifest) :
    List SourceManifest :=
  candidates.filter (fun s =>
    match env.policy s with
    | Except.ok true => true
    | _ => false)

/-- The per-source worker query_source of dispatch_query: a successful
dispatch yields a SUCCESS result with the returned data; an exception
yields an ERROR result with the stringified reason in an error envelope. -/
def querySource (env : BrokerEnv) (s : SourceManifest) : SourceResult :=
  match env.dispatchTo s with
  | Except.ok d => ⟨s.urn, Status.SUCCESS, d, env.latency s⟩
  | Except.error e => ⟨s.urn, Status.ERROR, Json.obj [("error", Json.str e)], env.latency s⟩

/-- FederationBroker.dispatch_query: embed the intent (failure returns the
Embedding Failed response), search the vector store (failure returns the
Search Failed response), filter candidates through the policy gate, then
dispatch every allowed source and aggregate, stamping with provenance. -/
def dispatch_query (env : BrokerEnv) (query_id : String) : CatalogResponse :=
  match env.embed with
  | Except.error _ => ⟨query_id, [], "ERROR: Embedding Failed"⟩
  | Except.ok _ =>
    match env.search with
    | Except.error _ => ⟨query_id, [], "ERROR: Search Failed"⟩
    | Except.ok candidates =>
      let allowed := governanceFilter env candidates
      if allowed = [] then
        ⟨query_id, [], generate_provenance query_id [] env.timestamp⟩
      else
        let results := allowed.map (querySource env)
        ⟨query_id, results, generate_provenance query_id results env.timestamp⟩

/-- Python re whitespace class (ASCII fragment), as matched by the package
name pattern of evaluate_policy. -/
def isWS (c : Char) : Bool :=
  c == ' ' || c == '\t' || c == '\n' || c == '\r' || c == '\x0b' || c == '\x0c'

/-- A character of the package identifier class a-z A-Z 0-9 underscore dot. -/
def isIdentChar (c : Char) : Bool :=
  c.isAlpha || c.isDigit || c == '_' || c == '.'

/-- The literal characters of the word package. -/
def pkgWordChars : List Char := ['p', 'a', 'c', 'k', 'a', 'g', 'e']

/-- One attempt of the package-name pattern at the start of the suffix l:
the literal word package, then at least one whitespace character, then the
maximal non-empty run of identifier characters (the captured group). -/
def matchPackageAt (l : List Char) : Option (List Char) :=
  if l.take 7 = pkgWordChars then
    let rest := l.drop 7
    if (rest.takeWhile isWS).isEmpty then none
    else
      let ident := (rest.dropWhile isWS).takeWhile isIdentChar
      if ident.isEmpty then none else some ident
  else none

/-- Leftmost search of the package-name pattern, as re.search does: try each
start position from the left and return the first capture. -/
def searchPackage : List Char → Option (List Char)
  | [] => none
  | c :: cs =>
    match matchPackageAt (c :: cs) with
    | some ident => some ident
    | none => searchPackage cs

/-- The package name evaluate_policy reads from the program text, when the
pattern matches anywhere. -/
def extractPackageName (s : String) : Option String :=
  (searchPackage s.data).map (fun cs => String.mk cs)

/-- Python strip() leaves the empty string, i.e. the string is empty or
whitespace only. -/
def isBlankStr (s : String) : Bool :=
  s.data.all isWS

/-- Occurrence of pat (non-empty) anywhere in the character list. -/
def hasSubstrChars (pat : List Char) : List Char → Bool
  | [] => pat.isEmpty
  | c :: cs => (List.take pat.length (c :: cs) == pat) || hasSubstrChars pat cs

/-- Python substring containment: pat in s. -/
def hasSubstr (s pat : String) : Bool :=
  hasSubstrChars pat.data s.data

/-- The program text handed to the oracle: unchanged when a package
declaration substring is present, otherwise prefixed with package match. -/
def finalPolicyOf (policy_code : String) : String :=
  if hasSubstr policy_code "package " then policy_code
  else "package match\n\n" ++ policy_code

/-- The query expression evaluate_policy builds: data.<pkg>.allow with pkg
the captured package name, falling back to match when there is no package
substring or the name cannot be read. -/
def queryOf (policy_code : String) : String :=
  if hasSubstr policy_code "package " then
    "data." ++ (extractPackageName policy_code).getD "match" ++ ".allow"
  else "data.match.allow"

/-- Key lookup in a JSON object node. -/
def jsonLookup (j : Json) (k : String) : Option Json :=
  match j with
  | Json.obj kvs => (kvs.find? (fun kv => kv.1 == k)).map (fun kv => kv.2)
  | _ => none

/-- The value the output-parsing chain of evaluate_policy reads from the
oracle's JSON output: output result[0] expressions[0] value, None-propagating
through each missing step as the dict.get chain does. -/
def extractAllowValue (output : Json) : Option Json :=
  match jsonLookup output "result" with
  | some (Json.arr (first :: _)) =>
    match jsonLookup first "expressions" with
    | some (Json.arr (e :: _)) => jsonLookup e "value"
    | _ => none
  | _ => none

/-- How one invocation of the external OPA binary can go. -/
inductive OracleBehavior where
  | timeout
  | exitFail
  | stdoutNotJson
  | output (j : Json)

/-- The Python exceptions evaluate_policy can raise. -/
inductive PyExc where
  | runtimeError
  | valueError
  deriving DecidableEq, Repr

/-- Environment of one evaluate_policy call: whether the binary was found,
whether json.dump of the input succeeds, and what the oracle does for a
given (program file text, query expression) pair. -/
structure PolicyEnv where
  opaConfigured : Bool
  serializable : Bool
  oracle : String → String → OracleBehavior

/-- Fate of the two temporary files of one evaluate_policy call: whether
each was created on disk and whether each was unlinked before the call
returned or raised. -/
structure FsTrace where
  policyCreated : Bool
  policyDeleted : Bool
  inputCreated : Bool
  inputDeleted : Bool
  deriving DecidableEq, Repr

/-- The subprocess-and-parse step of evaluate_policy: timeout, nonzero exit
and unparseable stdout raise RuntimeError; parsed output yields its allow
value when that value is a boolean and False otherwise. -/
def oracleStep (env : PolicyEnv) (fp q : String) : Except PyExc Bool :=
  match env.oracle fp q with
  | OracleBehavior.timeout => Except.error PyExc.runtimeError
  | OracleBehavior.exitFail => Except.error PyExc.runtimeError
  | OracleBehavior.stdoutNotJson => Except.error PyExc.runtimeError
  | OracleBehavior.output j =>
    match extractAllowValue j with
    | some (Json.jbool b) => Except.ok b
    | _ => Except.ok false

/-- PolicyEngine.evaluate_policy with its filesystem effect. Path by path,
following the source: no binary configured raises before any file exists;
an empty or whitespace-only program returns False before any file exists;
otherwise the policy temp file is created, then the input temp file is
created and json.dump attempted — on serialization failure the code unlinks
the policy file and raises ValueError while input_path is still unassigned,
so the input file stays on disk (the raise happens before the try block, so
the finally clause never runs); on success the try block runs the oracle and
its finally clause unlinks both files on every outcome. -/
def evaluate_policy (env : PolicyEnv) (policy_code : String) :
    Except PyExc Bool × FsTrace :=
  if env.opaConfigured = false then
    (Except.error PyExc.runtimeError, ⟨false, false, false, false⟩)
  else if isBlankStr policy_code = true then
    (Except.ok false, ⟨false, false, false, false⟩)
  else if env.serializable = false then
    (Except.error PyExc.valueError, ⟨true, true, true, false⟩)
  else
    (oracleStep env (finalPolicyOf policy_code) (queryOf policy_code),
      ⟨true, true, true, true⟩)

/-- The five characters of the data: field prefix of an SSE line. -/
def dataMarkChars : List Char := ['d', 'a', 't', 'a', ':']

/-- Whether a line begins with data: as SSEQueryDispatcher.dispatch tests. -/
def isDataLine (line : String) : Bool :=
  line.data.take 5 == dataMarkChars

/-- The contribution of one data: line: the remainder after the five-char
field prefix, with one optional leading space stripped. -/
def dataContent (line : String) : String :=
  match line.data.drop 5 with
  | ' ' :: rest => String.mk rest
  | other => String.mk other

/-- The line loop of SSEQueryDispatcher.dispatch over the streamed lines,
carrying the current event buffer and the collected payloads: a blank
(whitespace-only) line flushes a non-empty buffer through the payload parse,
appending on success and dropping the event on failure; a data: line appends
its stripped remainder to the buffer; every other line is ignored; the end
of the stream flushes a non-empty buffer the same way. The payload parse
(json.loads) is the parse argument, none meaning JSONDecodeError. -/
def sseLoop (parse : String → Option Json) :
    List String → List String → List Json → List Json
  | [], buffer, results =>
    if buffer.isEmpty then results
    else
      match parse (String.join buffer) with
      | some d => results ++ [d]
      | none => results
  | line :: rest, buffer, results =>
    if isBlankStr line then
      if buffer.isEmpty then sseLoop parse rest [] results
      else
        match parse (String.join buffer) with
        | some d => sseLoop parse rest [] (results ++ [d])
        | none => sseLoop parse rest [] results
    else if isDataLine line then
      sseLoop parse rest (buffer ++ [dataContent line]) results
    else
      sseLoop parse rest buffer results

/-- The payload list SSEQueryDispatcher.dispatch returns for a streamed list
of lines. -/
def sseDispatch (parse : String → Option Json) (lines : List String) : List Json :=
  sseLoop parse lines [] []

/-- The streamed lines cut into event blocks at blank lines: declarative
event-level view of the same stream (separators dropped; the final block is
the one terminated by end-of-stream). -/
def blocksOf : List String → List (List String)
  | [] => [[]]
  | l :: ls =>
    if isBlankStr l then [] :: blocksOf ls
    else
      match blocksOf ls with
      | b :: bs => (l :: b) :: bs
      | [] => [[l]]

/-- The payload of one event block given pending already-stripped data
pieces: the concatenation (no separator) of the pending pieces and the
block's stripped data: remainders, parsed when that buffer is non-empty. -/
def eventPayload (parse : String → Option Json) (pending : List String)
    (b : List String) : Option Json :=
  let ds := pending ++ (b.filter isDataLine).map dataContent
  if ds.isEmpty then none else parse (String.join ds)

/-- Event-level reading of the stream: one optional payload per block, with
a pending buffer feeding the first block. -/
def eventsWithPending (parse : String → Option Json) (pending : List String)
    (lines : List String) : List Json :=
  match blocksOf lines with
  | b :: bs => (eventPayload parse pending b).toList ++
      bs.filterMap (eventPayload parse [])
  | [] => []

/-- The Activity node of a provenance document: the first element of its
graph array. -/
def activityNodeOf (doc : Json) : Option Json :=
  match jsonLookup doc "@graph" with
  | some (Json.arr (a :: _)) => some a
  | _ => none

/-- The prov:used array of the Activity node, when present. -/
def usedListOf (doc : Json) : Option (List Json) :=
  match (activityNodeOf doc).bind (fun a => jsonLookup a "prov:used") with
  | some (Json.arr us) => some us
  | _ => none

/-- The URN strings of the prov:used array (empty when the key is absent). -/
def usedURNsOf (doc : Json) : List String :=
  ((usedListOf doc).getD []).filterMap
    (fun j => match j with | Json.str s => some s | _ => none)

end CoreasonCatalog

namespace CoreasonCatalog

/-- Sample manifest with an empty ACL list. -/
def mEmptyAcls : SourceManifest :=
  ⟨"urn:coreason:mcp:a", "A", "desc", "sse://a", "US", .INTERNAL, "own", "allow", []⟩

/-- Sample manifest whose ACL list holds the single group group:common. -/
def mCommon : SourceManifest :=
  ⟨"urn:coreason:mcp:b", "B", "desc", "sse://b", "US", .INTERNAL, "own", "allow",
    ["group:common"]⟩

/-- Sample non-service-account caller in group:common. -/
def ctxPlain : UserContext :=
  ⟨"u1", "u1@example.com", ["group:common"], []⟩

/-- Sample caller whose is_service_account claim is the integer 1, a truthy
value that is not the boolean True. -/
def ctxTruthyInt : UserContext :=
  ⟨"u1", "u1@example.com", ["group:common"], [("is_service_account", PyVal.int 1)]⟩

/-- Sample manifest whose ACL list does not intersect ctxPlain's groups. -/
def sAclBlock : SourceManifest :=
  ⟨"urn:acl_block", "S1", "desc", "sse://s1", "US", .INTERNAL, "own", "allow",
    ["group:super_secret"]⟩

/-- Sample manifest whose dispatch will fail. -/
def mBoom : SourceManifest :=
  ⟨"urn:b", "Boom", "desc", "sse://boom", "EU", .GxP_LOCKED, "own", "allow",
    ["group:common"]⟩

/-- Environment in which discovery returns two candidates, the policy gate
allows both, and the dispatch to urn:b raises. -/
def envC1 : BrokerEnv where
  embed := Except.ok [1]
  search := Except.ok [mCommon, mBoom]
  policy := fun _ => Except.ok true
  dispatchTo := fun s =>
    if s.urn = "urn:b" then Except.error "Connection Timeout"
    else Except.ok (Json.str "ok")
  latency := fun _ => 1
  timestamp := "2025-01-01T00:00:00+00:00"

/-- Environment in which discovery returns one candidate that fails the ACL
gate (its acls do not meet the caller's groups) while the policy gate
allows it. -/
def envC2 : BrokerEnv where
  embed := Except.ok [1]
  search := Except.ok [sAclBlock]
  policy := fun _ => Except.ok true
  dispatchTo := fun _ => Except.ok (Json.str "ok")
  latency := fun _ => 1
  timestamp := "2025-01-01T00:00:00+00:00"

/-- Environment in which the embedder raises. -/
def envEmbedFail : BrokerEnv where
  embed := Except.error "Model down"
  search := Except.ok []
  policy := fun _ => Except.ok true
  dispatchTo := fun _ => Except.ok Json.null
  latency := fun _ => 1
  timestamp := "2025-01-01T00:00:00+00:00"

/-- Environment in which the vector search raises. -/
def envSearchFail : BrokerEnv where
  embed := Except.ok [1]
  search := Except.error "DB Down"
  policy := fun _ => Except.ok true
  dispatchTo := fun _ => Except.ok Json.null
  latency := fun _ => 1
  timestamp := "2025-01-01T00:00:00+00:00"

/-- An oracle output of the expected shape whose allow value is the boolean
true. -/
def okAllowDoc : Json :=
  Json.obj [("result", Json.arr
    [Json.obj [("expressions", Json.arr
      [Json.obj [("value", Json.jbool true)]])]])]

/-- Sample policy program with an explicit package declaration. -/
def pcC7 : String := "package custom.pkg\n\nallow = true"

/-- Policy environment whose oracle answers the allow-true document exactly
for the query data.custom.pkg.allow and fails otherwise. -/
def envC7 : PolicyEnv where
  opaConfigured := true
  serializable := true
  oracle := fun _ q =>
    if q = "data.custom.pkg.allow" then OracleBehavior.output okAllowDoc
    else OracleBehavior.exitFail

/-- Policy environment in which json.dump of the input raises. -/
def envSerFail : PolicyEnv where
  opaConfigured := true
  serializable := false
  oracle := fun _ _ => OracleBehavior.exitFail

/-- Sample payload parse: every non-empty buffer parses to its own string
payload; the empty buffer is a JSON decode error, as for json.loads. -/
def parseStub (s : String) : Option Json :=
  if s = "" then none else some (Json.str s)

/-- Sample SSE stream: an ignored event: line, a two-piece data event
terminated by a blank line, then a final empty data: line terminated by end
of stream. -/
def linesSample : List String :=
  ["event: message", "data: a", "data:b", "", "data:"]

/-- Sample SUCCESS result for the source urn:b. -/
def rB : SourceResult := ⟨"urn:b", Status.SUCCESS, Json.null, 1⟩

/-- Sample SUCCESS result for the source urn:a. -/
def rA : SourceResult := ⟨"urn:a", Status.SUCCESS, Json.null, 1⟩

/-- Two SUCCESS results listed with the larger URN first. -/
def resultsBA : List SourceResult := [rB, rA]

/-- The Activity node of the assembled document is the first graph element. -/
theorem activityNodeOf_provenanceDoc (q ts : String) (rs : List SourceResult) :
    activityNodeOf (provenanceDoc q rs ts) = some (Json.obj (activityFields q rs ts)) := rfl

/-- The prov:used array of the assembled document: present with the SUCCESS
URNs in result order exactly when some result succeeded. -/
theorem usedListOf_provenanceDoc (q ts : String) (rs : List SourceResult) :
    usedListOf (provenanceDoc q rs ts) =
      if usedSources rs = [] then none
      else some ((usedSources rs).map Json.str) := by
  by_cases h : usedSources rs = []
  · simp only [usedListOf, activityNodeOf_provenanceDoc, Option.bind_some, if_pos h,
      jsonLookup, activityFields, List.find?]
    rfl
  · simp only [usedListOf, activityNodeOf_provenanceDoc, Option.bind_some, if_neg h,
      jsonLookup, activityFields, List.find?]
    rfl

/-- Unfolding equation of the SSE loop at the end of the stream. -/
theorem sseLoop_nil (parse : String → Option Json) (buffer : List String)
    (results : List Json) :
    sseLoop parse [] buffer results =
      if buffer.isEmpty then results
      else
        match parse (String.join buffer) with
        | some d => results ++ [d]
        | none => results := rfl

/-- Unfolding equation of the SSE loop at one more line. -/
theorem sseLoop_cons (parse : String → Option Json) (line : String)
    (rest buffer : List String) (results : List Json) :
    sseLoop parse (line :: rest) buffer results =
      if isBlankStr line then
        if buffer.isEmpty then sseLoop parse rest [] results
        else
          match parse (String.join buffer) with
          | some d => sseLoop parse rest [] (results ++ [d])
          | none => sseLoop parse rest [] results
      else if isDataLine line then
        sseLoop parse rest (buffer ++ [dataContent line]) results
      else
        sseLoop parse rest buffer results := rfl

/-- Unfolding equation of the block cut at one more line. -/
theorem blocksOf_cons (l : String) (ls : List String) :
    blocksOf (l :: ls) =
      if isBlankStr l then [] :: blocksOf ls
      else
        match blocksOf ls with
        | b :: bs => (l :: b) :: bs
        | [] => [[l]] := rfl

/-- Cutting a stream into blocks always yields at least one block. -/
theorem blocksOf_ne_nil (ls : List String) : blocksOf ls ≠ [] := by
  cases ls with
  | nil => simp [blocksOf]
  | cons l ls =>
    rw [blocksOf_cons]
    by_cases h : isBlankStr l = true
    · rw [if_pos h]
      simp
    · rw [if_neg h]
      cases blocksOf ls <;> simp

/-- The event view through a known block decomposition. -/
theorem eventsWithPending_cons (parse : String → Option Json)
    (pending : List String) (b : List String) (bs : List (List String))
    (lines : List String) (h : blocksOf lines = b :: bs) :
    eventsWithPending parse pending lines =
      (eventPayload parse pending b).toList ++ bs.filterMap (eventPayload parse []) := by
  unfold eventsWithPending
  rw [h]

/-- With no pending data, the event view is the per-block filterMap. -/
theorem eventsWithPending_nil (parse : String → Option Json) (lines : List String) :
    eventsWithPending parse [] lines =
      (blocksOf lines).filterMap (eventPayload parse []) := by
  cases h : blocksOf lines with
  | nil => exact absurd h (blocksOf_ne_nil lines)
  | cons b bs =>
    rw [eventsWithPending_cons parse [] b bs lines h, List.filterMap_cons]
    cases hb : eventPayload parse [] b <;> simp [hb]

/-- The payload of an empty block is the pending buffer's, when non-empty. -/
theorem eventPayload_nil (parse : String → Option Json) (pending : List String) :
    eventPayload parse pending [] =
      if pending.isEmpty then none else parse (String.join pending) := by
  unfold eventPayload
  simp

/-- A data: line folded into the first block moves its stripped content onto
the pending buffer. -/
theorem eventPayload_cons_data (parse : String → Option Json)
    (pending : List String) (line : String) (b : List String)
    (h : isDataLine line = true) :
    eventPayload parse pending (line :: b) =
      eventPayload parse (pending ++ [dataContent line]) b := by
  unfold eventPayload
  rw [List.filter_cons_of_pos (by simp [h]), List.map_cons]
  rw [show pending ++ (dataContent line :: (b.filter isDataLine).map dataContent) =
    (pending ++ [dataContent line]) ++ (b.filter isDataLine).map dataContent by simp]

/-- A non-data line folded into the first block changes nothing. -/
theorem eventPayload_cons_other (parse : String → Option Json)
    (pending : List String) (line : String) (b : List String)
    (h : isDataLine line = false) :
    eventPayload parse pending (line :: b) = eventPayload parse pending b := by
  unfold eventPayload
  rw [List.filter_cons_of_neg (by simp [h])]

/-- The line loop of the SSE dispatcher agrees with the event-level view:
the collected payloads so far, followed by one optional payload per block
with the pending buffer feeding the first. -/
theorem sseLoop_eq_events (parse : String → Option Json) :
    ∀ (lines pending : List String) (results : List Json),
      sseLoop parse lines pending results =
        results ++ eventsWithPending parse pending lines := by
  intro lines
  induction lines with
  | nil =>
    intro pending results
    rw [sseLoop_nil, eventsWithPending_cons parse pending [] [] [] rfl,
      eventPayload_nil]
    by_cases hp : pending.isEmpty = true
    · rw [if_pos hp, if_pos hp]
      simp
    · rw [if_neg hp, if_neg hp]
      cases hparse : parse (String.join pending) <;> simp [hparse]
  | cons line rest ih =>
    intro pending results
    by_cases hblank : isBlankStr line = true
    · have hblock : blocksOf (line :: rest) = [] :: blocksOf rest := by
        rw [blocksOf_cons, if_pos hblank]
      rw [sseLoop_cons, if_pos hblank,
        eventsWithPending_cons parse pending [] (blocksOf rest) (line :: rest) hblock,
        eventPayload_nil, ← eventsWithPending_nil]
      by_cases hp : pending.isEmpty = true
      · rw [if_pos hp, if_pos hp, ih]
        simp
      · rw [if_neg hp, if_neg hp]
        cases hparse : parse (String.join pending) with
        | none => simp [ih]
        | some d => simp [ih]
    · cases hb : blocksOf rest with
      | nil => exact absurd hb (blocksOf_ne_nil rest)
      | cons b bs =>
        have hblock : blocksOf (line :: rest) = (line :: b) :: bs := by
          rw [blocksOf_cons, if_neg hblank, hb]
        by_cases hdata : isDataLine line = true
        · rw [sseLoop_cons, if_neg hblank, if_pos hdata, ih,
            eventsWithPending_cons parse pending (line :: b) bs (line :: rest) hblock,
            eventsWithPending_cons parse (pending ++ [dataContent line]) b bs rest hb,
            eventPayload_cons_data parse pending line b hdata]
        · rw [sseLoop_cons, if_neg hblank, if_neg hdata, ih,
            eventsWithPending_cons parse pending (line :: b) bs (line :: rest) hblock,
            eventsWithPending_cons parse pending b bs rest hb,
            eventPayload_cons_other parse pending line b (by simpa using hdata)]

/-- Folding string append over empty pieces leaves the accumulator. -/
theorem foldl_append_empty (n : Nat) (acc : String) :
    List.foldl (fun r s => r ++ s) acc (List.replicate n "") = acc := by
  induction n generalizing acc with
  | zero => rfl
  | succ n ih =>
    rw [List.replicate_succ, List.foldl_cons]
    rw [show acc ++ "" = acc from by simp]
    exact ih acc

/-- Joining any number of empty pieces yields the empty string. -/
theorem join_replicate_empty (n : Nat) :
    String.join (List.replicate n "") = "" :=
  foldl_append_empty n ""

/-- A run of empty data: lines with no blank line is a single block. -/
theorem blocksOf_replicate_data (n : Nat) :
    blocksOf (List.replicate n "data:") = [List.replicate n "data:"] := by
  induction n with
  | zero => rfl
  | succ n ih =>
    rw [List.replicate_succ, blocksOf_cons, if_neg (by decide), ih]

/-- C9: the dispatcher's line loop equals the event-level reading: the
stream cut into blocks at blank lines (end-of-stream closing the last), each
block's payload the no-separator concatenation of its data: line remainders
(one optional leading space stripped from each), parsed when at least one
data: line occurred, successfully parsed payloads collected in order and
parse failures dropped; and, since the empty buffer fails to parse, an event
consisting only of empty data: lines yields no payload. -/
theorem C9_sse_event_grouping (parse : String → Option Json) (lines : List String) :
    (sseDispatch parse lines = (blocksOf lines).filterMap (eventPayload parse [])) ∧
    (parse "" = none → ∀ n,
      sseDispatch parse (List.replicate n "data:") = []) := by
  have hmain : ∀ ls, sseDispatch parse ls =
      (blocksOf ls).filterMap (eventPayload parse []) := by
    intro ls
    unfold sseDispatch
    rw [sseLoop_eq_events, eventsWithPending_nil]
    simp
  refine ⟨hmain lines, ?_⟩
  intro hempty n
  rw [hmain, blocksOf_replicate_data]
  have hds : ((List.replicate n "data:").filter isDataLine).map dataContent =
      List.replicate n "" := by
    rw [List.filter_replicate, if_pos (by decide), List.map_replicate]
    rfl
  have hpay : eventPayload parse [] (List.replicate n "data:") = none := by
    simp only [eventPayload, List.nil_append, hds]
    cases n with
    | zero => rfl
    | succ m =>
      rw [if_neg (by simp [List.replicate_succ])]
      rw [join_replicate_empty]
      exact hempty
  rw [List.filterMap_cons, hpay]
  rfl

/-- Witness for C9 at a concrete input: the stream linesSample yields the
single concatenated payload ab, and a stream of two empty data: lines yields
nothing. -/
theorem C9_sse_event_grouping_witness :
    sseDispatch parseStub linesSample = [Json.str "ab"] ∧
    sseDispatch parseStub (List.replicate 2 "data:") = [] := by
  constructor
  · rw [(C9_sse_event_grouping parseStub linesSample).1]
    rfl
  · exact (C9_sse_event_grouping parseStub linesSample).2 rfl 2

/-- C3: check_access(manifest, ctx) returns true iff ctx.claims maps
is_service_account to the boolean True, or the intersection of manifest.acls
and ctx.groups is non-empty (exact, case-sensitive string comparison); in
particular a manifest with empty acls denies every non-service-account
caller. -/
theorem C3_check_access_iff (asset : SourceManifest) (ctx : UserContext) :
    (check_access asset ctx = true ↔
      dictGet ctx.claims "is_service_account" = some (PyVal.bool true) ∨
        ∃ g, g ∈ asset.acls ∧ g ∈ ctx.groups) ∧
    (asset.acls = [] →
      dictGet ctx.claims "is_service_account" ≠ some (PyVal.bool true) →
      check_access asset ctx = false) := by
  constructor
  · unfold check_access
    split
    · simp only [true_iff]
      left
      assumption
    · simp only [List.any_eq_true, List.contains, List.elem_iff]
      constructor
      · rintro ⟨g, hg, hmem⟩
        exact Or.inr ⟨g, hg, hmem⟩
      · rintro (hsa | ⟨g, hg, hmem⟩)
        · exact absurd hsa (by assumption)
        · exact ⟨g, hg, hmem⟩
  · intro hacls hsa
    unfold check_access
    rw [if_neg hsa, hacls]
    rfl

/-- Witness for C3 at a concrete input: empty acls and a non-service-account
caller yield denial. -/
theorem C3_check_access_iff_witness :
    mEmptyAcls.acls = [] ∧ check_access mEmptyAcls ctxPlain = false :=
  ⟨rfl, (C3_check_access_iff mEmptyAcls ctxPlain).2 rfl (by decide)⟩

/-- C1 counterexample evaluation: the claim requires every CatalogResponse
from dispatch_query to carry a partial_content field that is true on this
run, whose aggregated results contain an ERROR status; but the
CatalogResponse the code produces declares only query_id, aggregated_results
and provenance_signature — there is no partial_content field to carry, even
though the broker test suite asserts response.partial_content is True on
exactly such runs. -/
theorem C1_response_has_no_partial_flag :
    (dispatch_query envC1 "q1").aggregated_results.map (fun r => r.status) =
      [Status.SUCCESS, Status.ERROR] := by rfl

/-- C2 counterexample evaluation: the claim says the governance stage of
dispatch_query applies the ACL gate (check_access) before the policy gate
and drops a candidate whose gate is false; but the code's governance loop
consults only evaluate_policy, so a candidate that fails check_access (its
acls are disjoint from the caller's groups) is still dispatched when the
policy gate allows it. -/
theorem C2_acl_gate_not_consulted :
    check_access sAclBlock ctxPlain = false ∧
    (dispatch_query envC2 "q1").aggregated_results.map
        (fun r => (r.source_urn, r.status)) = [("urn:acl_block", Status.SUCCESS)] :=
  ⟨by decide, by rfl⟩

/-- C6: dispatch_query never raises: when the embedder raises it returns the
empty response whose provenance signature is the literal ERROR: Embedding
Failed, and when the vector search raises it returns the empty response
whose provenance signature is the literal ERROR: Search Failed. -/
theorem C6_broker_error_paths (env : BrokerEnv) (qid : String) :
    (∀ e, env.embed = Except.error e →
      dispatch_query env qid = ⟨qid, [], "ERROR: Embedding Failed"⟩) ∧
    (∀ emb e, env.embed = Except.ok emb → env.search = Except.error e →
      dispatch_query env qid = ⟨qid, [], "ERROR: Search Failed"⟩) := by
  constructor
  · intro e he
    unfold dispatch_query
    rw [he]
  · intro emb e he hs
    unfold dispatch_query
    rw [he, hs]

/-- Witness for C6 at concrete inputs: a failing embedder and a failing
vector search produce the two literal error responses. -/
theorem C6_broker_error_paths_witness :
    dispatch_query envEmbedFail "q1" = ⟨"q1", [], "ERROR: Embedding Failed"⟩ ∧
    dispatch_query envSearchFail "q1" = ⟨"q1", [], "ERROR: Search Failed"⟩ :=
  ⟨(C6_broker_error_paths envEmbedFail "q1").1 "Model down" rfl,
   (C6_broker_error_paths envSearchFail "q1").2 [1] "DB Down" rfl rfl⟩

/-- C7: with the binary configured, evaluate_policy returns False for an
empty or whitespace-only program without consulting the oracle; a program
with no package-declaration substring is prepended with package match and
queried at data.match.allow; a program with a package substring is queried
at data.<pkg>.allow with pkg the first captured package identifier token
(falling back to match when it cannot be read); and the call returns True
only when the oracle produced output whose allow value is the boolean
true. -/
theorem C7_query_selection (env : PolicyEnv) (pc : String)
    (hconf : env.opaConfigured = true) :
    (isBlankStr pc = true → (evaluate_policy env pc).1 = Except.ok false) ∧
    (isBlankStr pc = false → env.serializable = true →
      hasSubstr pc "package " = false →
      (evaluate_policy env pc).1 =
        oracleStep env ("package match\n\n" ++ pc) "data.match.allow") ∧
    (isBlankStr pc = false → env.serializable = true →
      hasSubstr pc "package " = true →
      (evaluate_policy env pc).1 =
        oracleStep env pc
          ("data." ++ (extractPackageName pc).getD "match" ++ ".allow")) ∧
    ((evaluate_policy env pc).1 = Except.ok true →
      ∃ j, env.oracle (finalPolicyOf pc) (queryOf pc) = OracleBehavior.output j ∧
        extractAllowValue j = some (Json.jbool true)) := by
  have hc : ¬ env.opaConfigured = false := by simp [hconf]
  refine ⟨?_, ?_, ?_, ?_⟩
  · intro hblank
    unfold evaluate_policy
    rw [if_neg hc, if_pos hblank]
  · intro hblank hser hsub
    unfold evaluate_policy
    rw [if_neg hc, if_neg (by simp [hblank]), if_neg (by simp [hser])]
    unfold finalPolicyOf queryOf
    rw [if_neg (by simp [hsub]), if_neg (by simp [hsub])]
  · intro hblank hser hsub
    unfold evaluate_policy
    rw [if_neg hc, if_neg (by simp [hblank]), if_neg (by simp [hser])]
    unfold finalPolicyOf queryOf
    rw [if_pos (by simp [hsub]), if_pos (by simp [hsub])]
  · intro htrue
    unfold evaluate_policy at htrue
    rw [if_neg hc] at htrue
    by_cases hblank : isBlankStr pc = true
    · rw [if_pos hblank] at htrue
      exact absurd htrue (by simp)
    · rw [if_neg hblank] at htrue
      by_cases hser : env.serializable = false
      · rw [if_pos hser] at htrue
        exact absurd htrue (by simp)
      · rw [if_neg hser] at htrue
        unfold oracleStep at htrue
        cases horacle : env.oracle (finalPolicyOf pc) (queryOf pc) with
        | timeout =>
          simp only [horacle] at htrue
          exact absurd htrue (by simp)
        | exitFail =>
          simp only [horacle] at htrue
          exact absurd htrue (by simp)
        | stdoutNotJson =>
          simp only [horacle] at htrue
          exact absurd htrue (by simp)
        | output j =>
          simp only [horacle] at htrue
          refine ⟨j, rfl, ?_⟩
          cases hval : extractAllowValue j with
          | none =>
            simp only [hval] at htrue
            exact absurd htrue (by simp)
          | some v =>
            cases v with
            | jbool b =>
              simp only [hval, Except.ok.injEq] at htrue
              rw [htrue]
            | null =>
              simp only [hval] at htrue
              exact absurd htrue (by simp)
            | str s =>
              simp only [hval] at htrue
              exact absurd htrue (by simp)
            | arr xs =>
              simp only [hval] at htrue
              exact absurd htrue (by simp)
            | obj kvs =>
              simp only [hval] at htrue
              exact absurd htrue (by simp)

/-- Witness for C7 at a concrete input: the declared package custom.pkg is
captured and queried, and the allow-true oracle output makes the call return
True. -/
theorem C7_query_selection_witness :
    (evaluate_policy envC7 pcC7).1 =
      oracleStep envC7 pcC7
        ("data." ++ (extractPackageName pcC7).getD "match" ++ ".allow") ∧
    (evaluate_policy envC7 pcC7).1 = Except.ok true :=
  ⟨(C7_query_selection envC7 pcC7 rfl).2.2.1 rfl rfl rfl, by rfl⟩

/-- C8 counterexample evaluation: on the non-serializable-input exit path
the call raises ValueError after both temporary files were created, unlinks
the policy file, and leaves the input file on disk: input_path is assigned
only after a successful json.dump, the raise happens before the try block
whose finally clause does the cleanup, and that clause would skip the input
file anyway since input_path is not in locals. The claim says both files
are removed on every exit path. -/
theorem C8_input_file_leaked :
    evaluate_policy envSerFail "allow = true" =
      (Except.error PyExc.valueError,
        ⟨true, true, true, false⟩) := by rfl

/-- C4: the document generated by generate_provenance carries a prov:used
list on its Activity node exactly when some result has status SUCCESS, and
the URNs listed there are exactly the source_urn values of the SUCCESS
results. -/
theorem C4_prov_used_success (query_id timestamp : String)
    (results : List SourceResult) :
    ((usedListOf (provenanceDoc query_id results timestamp)).isSome = true ↔
      ∃ r ∈ results, r.status = Status.SUCCESS) ∧
    (∀ u : String,
      u ∈ usedURNsOf (provenanceDoc query_id results timestamp) ↔
        ∃ r ∈ results, r.status = Status.SUCCESS ∧ r.source_urn = u) := by
  have hnil : usedSources results = [] ↔ ∀ r ∈ results, ¬ r.status = Status.SUCCESS := by
    simp only [usedSources, List.map_eq_nil_iff, List.filter_eq_nil_iff,
      decide_eq_true_eq]
  constructor
  · rw [usedListOf_provenanceDoc]
    by_cases h : usedSources results = []
    · rw [if_pos h]
      simp only [Option.isSome_none]
      constructor
      · intro hfalse
        exact absurd hfalse (by decide)
      · rintro ⟨r, hr, hs⟩
        exact absurd hs (hnil.mp h r hr)
    · simp only [if_neg h, Option.isSome_some, true_iff]
      by_contra hno
      push_neg at hno
      exact h (hnil.mpr hno)
  · intro u
    unfold usedURNsOf
    rw [usedListOf_provenanceDoc]
    by_cases h : usedSources results = []
    · simp only [if_pos h, Option.getD_none, List.filterMap_nil, List.not_mem_nil,
        false_iff]
      rintro ⟨r, hr, hs, _⟩
      exact (hnil.mp h r hr) hs
    · simp only [if_neg h, Option.getD_some, List.filterMap_map]
      have hcomp : ∀ s : String,
          (Function.comp (fun j => match j with | Json.str s => some s | _ => none)
            Json.str) s = some s := fun _ => rfl
      rw [List.filterMap_congr (fun x _ => hcomp x)]
      simp only [List.filterMap_some]
      simp only [usedSources, List.mem_map, List.mem_filter, decide_eq_true_eq]
      constructor
      · rintro ⟨r, ⟨hr, hs⟩, hu⟩
        exact ⟨r, hr, hs, hu⟩
      · rintro ⟨r, hr, hs, hu⟩
        exact ⟨r, ⟨hr, hs⟩, hu⟩

/-- Witness for C4 at a concrete input: with two SUCCESS results the
prov:used list is present and contains the first URN. -/
theorem C4_prov_used_success_witness :
    (usedListOf (provenanceDoc "q1" resultsBA "2025-01-01T00:00:00+00:00")).isSome = true ∧
      "urn:b" ∈ usedURNsOf (provenanceDoc "q1" resultsBA "2025-01-01T00:00:00+00:00") :=
  ⟨(C4_prov_used_success "q1" "2025-01-01T00:00:00+00:00" resultsBA).1.mpr
      ⟨rB, by simp [resultsBA], rfl⟩,
    ((C4_prov_used_success "q1" "2025-01-01T00:00:00+00:00" resultsBA).2 "urn:b").mpr
      ⟨rB, by simp [resultsBA], rfl, rfl⟩⟩

/-- C5 counterexample evaluation: the claim says the prov:used array is
sorted by URN, but generate_provenance keeps it in result order: with the
SUCCESS results listed as urn:b then urn:a, the assembled document's
prov:used array is exactly that unsorted order. -/
theorem C5_prov_used_not_sorted :
    usedURNsOf (provenanceDoc "q1" resultsBA "2025-01-01T00:00:00+00:00") =
      ["urn:b", "urn:a"] ∧
    ¬ List.Sorted (fun a b : String => a ≤ b) ["urn:b", "urn:a"] := by
  constructor
  · rfl
  · intro hs
    have hle : ("urn:b" : String) ≤ "urn:a" := List.rel_of_sorted_cons hs _ (by simp)
    have : ¬ ("urn:b" : String) ≤ "urn:a" := by
      simp
      decide
    exact this hle

/-- C10: the service-account bypass fires only when the claim value is
exactly the boolean True; when ctx.claims maps is_service_account to any
other value (such as the integer 1 or the string true), access is decided by
the group-intersection test alone. -/
theorem C10_bypass_only_bool_true (asset : SourceManifest) (ctx : UserContext)
    (v : PyVal) (hv : dictGet ctx.claims "is_service_account" = some v)
    (hne : v ≠ PyVal.bool true) :
    check_access asset ctx = true ↔ ∃ g, g ∈ asset.acls ∧ g ∈ ctx.groups := by
  have hno : dictGet ctx.claims "is_service_account" ≠ some (PyVal.bool true) := by
    rw [hv]
    intro h
    exact hne (Option.some_injective _ h)
  unfold check_access
  rw [if_neg hno]
  simp only [List.any_eq_true, List.contains, List.elem_iff]

/-- Witness for C10 at a concrete input: claim value integer 1 does not take
the bypass, and access is granted exactly by the shared group. -/
theorem C10_bypass_only_bool_true_witness :
    dictGet ctxTruthyInt.claims "is_service_account" = some (PyVal.int 1) ∧
      (check_access mCommon ctxTruthyInt = true ↔
        ∃ g, g ∈ mCommon.acls ∧ g ∈ ctxTruthyInt.groups) :=
  ⟨rfl, C10_bypass_only_bool_true mCommon ctxTruthyInt (PyVal.int 1) rfl (by decide)⟩

end CoreasonCatalog
